import Mathlib

/-!
Shallow embedding of `src/ESP32/dataacquisitionc.cpp` (3DPostureSense).

Modelling conventions:
* `float` arithmetic is embedded as exact rational arithmetic (`ℚ`); every
  numeric literal below is the exact decimal constant written in the source.
* The sentinel `NAN` used for an undefined CoP is embedded as `Option ℚ`
  with `none` standing for NaN.
* The source compares `sqrt(dx*dx + dy*dy) <= DEAD_ZONE_RADIUS_CM`; since both
  sides are non-negative and `sqrt` is monotone, this is equivalent to
  `dx*dx + dy*dy ≤ DEAD_ZONE_RADIUS_CM²`, which is how the dead-zone test is
  embedded (square roots of rationals need not be rational).
* `millis()` timestamps are embedded as `ℕ`; the unsigned subtraction
  `millis() - lastLogTime` is `ℕ` truncated subtraction, which agrees with the
  32-bit unsigned result while the clock has not wrapped.
-/

namespace PostureSense

/-! ## Constants (lines 7, 23-60 of the source) -/

def LOG_INTERVAL_MS : ℕ := 50

/-- MODEL 1 coefficient `P1 = -2.13971683f` (line 23). -/
def P1 : ℚ := -2.13971683

/-- MODEL 1 coefficient `P2 = 18.96856857f` (line 24). -/
def P2 : ℚ := 18.96856857

/-- MODEL 1 coefficient `P3 = -25.61022289f` (line 25). -/
def P3 : ℚ := -25.61022289

/-- `C_REL_LEFT = 1.0f` (line 30), the reference sensor. -/
def C_REL_LEFT : ℚ := 1

/-- `C_REL_RIGHT = 23.0/26.0f` (line 31). -/
def C_REL_RIGHT : ℚ := 23 / 26

/-- `C_REL_VTC = 23.0/32.4f` (line 32). -/
def C_REL_VTC : ℚ := 23 / 32.4

/-- `SYSTEM_FORCE_SCALE = 5.91f` (line 37). -/
def SYSTEM_FORCE_SCALE : ℚ := 5.91

/-- `EMA_ALPHA = 0.15f` (line 40). -/
def EMA_ALPHA : ℚ := 0.15

/-- Sensor geometry (lines 48-50), split into named coordinates. -/
def P_LEFT_X : ℚ := 0
def P_LEFT_Y : ℚ := 0
def P_RIGHT_X : ℚ := 7
def P_RIGHT_Y : ℚ := 0
def P_VTC_X : ℚ := 3.5
def P_VTC_Y : ℚ := 22

/-- `GEOMETRIC_CENTER_XY[0]` (lines 51-54). -/
def GEOMETRIC_CENTER_X : ℚ := (P_LEFT_X + P_RIGHT_X + P_VTC_X) / 3

/-- `GEOMETRIC_CENTER_XY[1]` (lines 51-54). -/
def GEOMETRIC_CENTER_Y : ℚ := (P_LEFT_Y + P_RIGHT_Y + P_VTC_Y) / 3

/-- `MIN_REST_THRESHOLD_N = 3.5` (line 58). -/
def MIN_REST_THRESHOLD_N : ℚ := 3.5

/-- `DEAD_ZONE_RADIUS_CM = 2.0` (line 60). -/
def DEAD_ZONE_RADIUS_CM : ℚ := 2

/-! ## Calibration model (lines 106-114 and 131-145) -/

/-- `voltageToRawUnit` (lines 106-114): clip below the rest baseline, otherwise
evaluate the quadratic on the ABSOLUTE voltage and clip to `≥ 0`. -/
def voltageToRawUnit (voltage v_rest : ℚ) : ℚ :=
  if voltage ≤ v_rest then 0
  else max 0 (P1 * voltage * voltage + P2 * voltage + P3)

/-- The spec's `forceFromVoltage` contract: raw unit from `voltageToRawUnit`,
then the relative-sensitivity stage and the global scale stage exactly as the
loop applies them (lines 132-145). -/
def forceFromVoltage (v v_rest c_rel scale : ℚ) : ℚ :=
  voltageToRawUnit v v_rest * c_rel * scale

/-- Left-channel force as computed by the loop (lines 132, 138, 143). -/
def F_leftOf (v v_rest : ℚ) : ℚ :=
  forceFromVoltage v v_rest C_REL_LEFT SYSTEM_FORCE_SCALE

/-- Right-channel force as computed by the loop (lines 133, 139, 144). -/
def F_rightOf (v v_rest : ℚ) : ℚ :=
  forceFromVoltage v v_rest C_REL_RIGHT SYSTEM_FORCE_SCALE

/-- Vertex-channel force as computed by the loop (lines 134, 140, 145). -/
def F_vtcOf (v v_rest : ℚ) : ℚ :=
  forceFromVoltage v v_rest C_REL_VTC SYSTEM_FORCE_SCALE

/-! ## Exponential filter (lines 127-129) -/

/-- One EMA update: `(EMA_ALPHA * raw) + (1.0 - EMA_ALPHA) * filtered`. -/
def ema (sample prev : ℚ) : ℚ :=
  EMA_ALPHA * sample + (1 - EMA_ALPHA) * prev

/-- The filtered-voltage trajectory of one channel: value after `n` cycles,
starting from `init` and fed `inputs 0`, `inputs 1`, ... -/
def filtTrace (inputs : ℕ → ℚ) (init : ℚ) : ℕ → ℚ
  | 0 => init
  | n + 1 => ema (inputs n) (filtTrace inputs init n)

/-! ## CoP and dead-zone engine (lines 147-176) -/

/-- Per-cycle outputs of the state/CoP/dead-zone block, plus the persisted
dead-zone membership after the cycle (`was_in_deadzone` at line 172/175). -/
structure CopOut where
  cop_x : Option ℚ
  cop_y : Option ℚ
  copStateChanged : Bool
  was_in_deadzone : Bool
  isArmRested : Bool
  deriving Repr, DecidableEq

/-- Lines 147-176 of `loop`: total force, rest decision, CoP, dead-zone
membership, state-change flag, and the update of the persisted membership. -/
def copDeadzoneStep (F_left F_right F_vtc : ℚ) (was_in_deadzone : Bool) :
    CopOut :=
  let F_tot := F_left + F_right + F_vtc
  if MIN_REST_THRESHOLD_N < F_tot then
    let cop_x := (P_LEFT_X * F_left + P_RIGHT_X * F_right + P_VTC_X * F_vtc) / F_tot
    let cop_y := (P_LEFT_Y * F_left + P_RIGHT_Y * F_right + P_VTC_Y * F_vtc) / F_tot
    let dx := cop_x - GEOMETRIC_CENTER_X
    let dy := cop_y - GEOMETRIC_CENTER_Y
    let now_in_deadzone : Bool :=
      decide (dx * dx + dy * dy ≤ DEAD_ZONE_RADIUS_CM * DEAD_ZONE_RADIUS_CM)
    { cop_x := some cop_x
      cop_y := some cop_y
      copStateChanged := now_in_deadzone != was_in_deadzone
      was_in_deadzone := now_in_deadzone
      isArmRested := true }
  else
    { cop_x := none
      cop_y := none
      copStateChanged := false
      was_in_deadzone := false
      isArmRested := false }

/-- Steps 2-4 of the loop from the three filtered voltages and the three rest
baselines: calibration (lines 132-145) followed by the CoP/dead-zone block. -/
def cycleCompute (vL vR vV rL rR rV : ℚ) (was_in_deadzone : Bool) : CopOut :=
  copDeadzoneStep (F_leftOf vL rL) (F_rightOf vR rR) (F_vtcOf vV rV)
    was_in_deadzone

/-! ## Full loop state and one loop iteration (lines 120-190) -/

/-- The mutable globals read and written by `loop`. -/
structure DAQState where
  filtered_v_left : ℚ
  filtered_v_right : ℚ
  filtered_v_vtc : ℚ
  was_in_deadzone : Bool
  lastLogTime : ℕ
  deriving Repr, DecidableEq

/-- One iteration of `loop`: EMA filtering, calibration, CoP/dead-zone logic,
and the telemetry gate `millis() - lastLogTime >= LOG_INTERVAL_MS`.
Returns the updated state, whether a record was emitted, and the cycle's
computed outputs. `now` is the value of `millis()`, the `r*` arguments are the
rest baselines fixed at startup. -/
def loopStep (s : DAQState) (v_left_raw v_right_raw v_vtc_raw rL rR rV : ℚ)
    (now : ℕ) : DAQState × Bool × CopOut :=
  let fL := ema v_left_raw s.filtered_v_left
  let fR := ema v_right_raw s.filtered_v_right
  let fV := ema v_vtc_raw s.filtered_v_vtc
  let out := cycleCompute fL fR fV rL rR rV s.was_in_deadzone
  let emit : Bool := decide (LOG_INTERVAL_MS ≤ now - s.lastLogTime)
  ({ filtered_v_left := fL
     filtered_v_right := fR
     filtered_v_vtc := fV
     was_in_deadzone := out.was_in_deadzone
     lastLogTime := if emit then now else s.lastLogTime },
   emit, out)

/-! ## Telemetry gate in isolation (lines 179-190) -/

/-- Number of telemetry emissions over `T` loop iterations occurring at
consecutive millisecond timestamps `t, t+1, ...`, starting with last-emit
timestamp `last` (dense "continuous operation" schedule). -/
def logRun : ℕ → ℕ → ℕ → ℕ
  | _, _, 0 => 0
  | last, t, T + 1 =>
    if LOG_INTERVAL_MS ≤ t - last then logRun t (t + 1) T + 1
    else logRun last (t + 1) T

/-- Number of telemetry emissions over an arbitrary list of iteration
timestamps, starting with last-emit timestamp `last`. -/
def countEmits : ℕ → List ℕ → ℕ
  | _, [] => 0
  | last, t :: ts =>
    if LOG_INTERVAL_MS ≤ t - last then countEmits t ts + 1
    else countEmits last ts

/-! ## Helper lemmas -/

lemma voltageToRawUnit_nonneg (v vr : ℚ) : 0 ≤ voltageToRawUnit v vr := by
  unfold voltageToRawUnit
  split
  · exact le_refl 0
  · exact le_max_left 0 _

lemma forceFromVoltage_nonneg (v vr c s : ℚ) (hc : 0 ≤ c) (hs : 0 ≤ s) :
    0 ≤ forceFromVoltage v vr c s :=
  mul_nonneg (mul_nonneg (voltageToRawUnit_nonneg v vr) hc) hs

lemma copDeadzoneStep_not_rested (Fl Fr Fv : ℚ) (was : Bool)
    (h : ¬ MIN_REST_THRESHOLD_N < Fl + Fr + Fv) :
    copDeadzoneStep Fl Fr Fv was =
      ⟨none, none, false, false, false⟩ := by
  simp [copDeadzoneStep, h]

lemma copDeadzoneStep_rested (Fl Fr Fv : ℚ) (was : Bool)
    (h : MIN_REST_THRESHOLD_N < Fl + Fr + Fv) :
    copDeadzoneStep Fl Fr Fv was =
      (let F_tot := Fl + Fr + Fv
       let cx := (P_LEFT_X * Fl + P_RIGHT_X * Fr + P_VTC_X * Fv) / F_tot
       let cy := (P_LEFT_Y * Fl + P_RIGHT_Y * Fr + P_VTC_Y * Fv) / F_tot
       let nd : Bool :=
         decide ((cx - GEOMETRIC_CENTER_X) * (cx - GEOMETRIC_CENTER_X) +
           (cy - GEOMETRIC_CENTER_Y) * (cy - GEOMETRIC_CENTER_Y) ≤
             DEAD_ZONE_RADIUS_CM * DEAD_ZONE_RADIUS_CM)
       ⟨some cx, some cy, nd != was, nd, true⟩) := by
  simp [copDeadzoneStep, h]

lemma step_isArmRested (Fl Fr Fv : ℚ) (was : Bool) :
    (copDeadzoneStep Fl Fr Fv was).isArmRested =
      decide (MIN_REST_THRESHOLD_N < Fl + Fr + Fv) := by
  by_cases h : MIN_REST_THRESHOLD_N < Fl + Fr + Fv
  · rw [copDeadzoneStep_rested Fl Fr Fv was h]
    simp [h]
  · rw [copDeadzoneStep_not_rested Fl Fr Fv was h]
    simp [h]

/-- The quadratic transfer function is negative everywhere at or below 1.66 V
(its smaller root is ≈ 1.6616 V). -/
lemma quad_neg_below (v : ℚ) (h : v ≤ 1.66) :
    P1 * v * v + P2 * v + P3 < 0 := by
  have h2 : (0 : ℚ) ≤ 7.2 - v := by
    rw [show (1.66 : ℚ) = 83/50 by norm_num] at h
    linarith
  have h1 : (0 : ℚ) ≤ 83/50 - v := by
    rw [show (1.66 : ℚ) = 83/50 by norm_num] at h
    linarith
  unfold P1 P2 P3
  nlinarith [mul_nonneg h1 h2]

/-! ## Claim theorems -/

/-- C5: for every filtered voltage at or below the rest baseline,
`forceFromVoltage` returns exactly 0, for any sensitivity and scale. -/
theorem force_zero_at_or_below_baseline (v vr c s : ℚ) (h : v ≤ vr) :
    forceFromVoltage v vr c s = 0 := by
  simp [forceFromVoltage, voltageToRawUnit, h]

theorem force_zero_at_or_below_baseline_witness :
    (1 : ℚ) ≤ 2 ∧ forceFromVoltage 1 2 5 7 = 0 :=
  ⟨by norm_num, force_zero_at_or_below_baseline 1 2 5 7 (by norm_num)⟩

/-- C1: above the rest baseline the calibrated force is
`max 0 (P1·v² + P2·v + P3) · c_rel · scale`, the quadratic taken on the
absolute voltage; and the result is non-negative for every input, both for
arbitrary non-negative coefficients and for the three concrete channels. -/
theorem force_formula_above_baseline_and_nonneg :
    (∀ v vr c s : ℚ, vr < v →
      forceFromVoltage v vr c s = max 0 (P1 * v * v + P2 * v + P3) * c * s) ∧
    (∀ v vr c s : ℚ, 0 ≤ c → 0 ≤ s → 0 ≤ forceFromVoltage v vr c s) ∧
    (∀ v vr : ℚ, 0 ≤ F_leftOf v vr ∧ 0 ≤ F_rightOf v vr ∧ 0 ≤ F_vtcOf v vr) := by
  refine ⟨fun v vr c s h => ?_, fun v vr c s hc hs => ?_, fun v vr => ?_⟩
  · simp [forceFromVoltage, voltageToRawUnit, not_le.mpr h]
  · exact forceFromVoltage_nonneg v vr c s hc hs
  · refine ⟨?_, ?_, ?_⟩ <;>
      exact forceFromVoltage_nonneg v vr _ _ (by norm_num [C_REL_LEFT, C_REL_RIGHT, C_REL_VTC])
        (by norm_num [SYSTEM_FORCE_SCALE])

theorem force_formula_above_baseline_and_nonneg_witness :
    (1 : ℚ) < 2 ∧
    forceFromVoltage 2 1 3 4 = max 0 (P1 * 2 * 2 + P2 * 2 + P3) * 3 * 4 ∧
    (0 : ℚ) ≤ 3 ∧ (0 : ℚ) ≤ 4 ∧ 0 ≤ forceFromVoltage 2 1 3 4 ∧
    0 ≤ F_leftOf 2 1 :=
  ⟨by norm_num, force_formula_above_baseline_and_nonneg.1 2 1 3 4 (by norm_num),
   by norm_num, by norm_num,
   force_formula_above_baseline_and_nonneg.2.1 2 1 3 4 (by norm_num) (by norm_num),
   (force_formula_above_baseline_and_nonneg.2.2 2 1).1⟩

/-- C9: `P3 < 0`, and for every rest baseline below 1.66 V (the quadratic's
smaller root is ≈ 1.6616 V) there is a strictly-above-baseline voltage whose
force is still exactly 0, because the clipped quadratic vanishes there. -/
theorem force_zero_above_baseline_exists :
    P3 < 0 ∧
    ∀ vr : ℚ, vr < 1.66 →
      ∃ v : ℚ, vr < v ∧ ∀ c s : ℚ, forceFromVoltage v vr c s = 0 := by
  constructor
  · norm_num [P3]
  · intro vr h
    refine ⟨(vr + 1.66) / 2, by linarith, fun c s => ?_⟩
    have hv : (vr + 1.66) / 2 ≤ 1.66 := by linarith
    have hq := quad_neg_below ((vr + 1.66) / 2) hv
    unfold forceFromVoltage voltageToRawUnit
    rw [if_neg (not_le.mpr (by linarith))]
    rw [max_eq_left (le_of_lt hq)]
    ring

theorem force_zero_above_baseline_exists_witness :
    (1 : ℚ) < 1.66 ∧
    ∃ v : ℚ, (1 : ℚ) < v ∧ ∀ c s : ℚ, forceFromVoltage v 1 c s = 0 :=
  ⟨by norm_num, force_zero_above_baseline_exists.2 1 (by norm_num)⟩

/-- C2: on a rested cycle the state-change flag is raised exactly when the
newly persisted dead-zone membership differs from the previous cycle's
persisted membership; in particular it is false on every steady-state rested
cycle and true exactly on the cycle of a transition. -/
theorem state_changed_iff_membership_changed (Fl Fr Fv : ℚ) (was : Bool)
    (h : (copDeadzoneStep Fl Fr Fv was).isArmRested = true) :
    ((copDeadzoneStep Fl Fr Fv was).copStateChanged = true ↔
      (copDeadzoneStep Fl Fr Fv was).was_in_deadzone ≠ was) := by
  by_cases hF : MIN_REST_THRESHOLD_N < Fl + Fr + Fv
  · rw [copDeadzoneStep_rested Fl Fr Fv was hF]
    simp [bne_iff_ne]
  · rw [copDeadzoneStep_not_rested Fl Fr Fv was hF] at h
    simp at h

theorem state_changed_iff_membership_changed_witness :
    (copDeadzoneStep 10 0 0 false).isArmRested = true ∧
    ((copDeadzoneStep 10 0 0 false).copStateChanged = true ↔
      (copDeadzoneStep 10 0 0 false).was_in_deadzone ≠ false) :=
  ⟨by rw [step_isArmRested]; norm_num [MIN_REST_THRESHOLD_N],
   state_changed_iff_membership_changed 10 0 0 false
     (by rw [step_isArmRested]; norm_num [MIN_REST_THRESHOLD_N])⟩

/-- C3: on every not-rested cycle the persisted dead-zone membership is forced
to `false` and the state-change flag is not raised, regardless of the previous
membership. -/
theorem not_rested_forces_membership_false (Fl Fr Fv : ℚ) (was : Bool)
    (h : (copDeadzoneStep Fl Fr Fv was).isArmRested = false) :
    (copDeadzoneStep Fl Fr Fv was).was_in_deadzone = false ∧
    (copDeadzoneStep Fl Fr Fv was).copStateChanged = false := by
  by_cases hF : MIN_REST_THRESHOLD_N < Fl + Fr + Fv
  · rw [copDeadzoneStep_rested Fl Fr Fv was hF] at h
    simp at h
  · rw [copDeadzoneStep_not_rested Fl Fr Fv was hF]
    exact ⟨rfl, rfl⟩

theorem not_rested_forces_membership_false_witness :
    (copDeadzoneStep 1 1 1 true).isArmRested = false ∧
    (copDeadzoneStep 1 1 1 true).was_in_deadzone = false ∧
    (copDeadzoneStep 1 1 1 true).copStateChanged = false :=
  ⟨by rw [step_isArmRested]; norm_num [MIN_REST_THRESHOLD_N],
   not_rested_forces_membership_false 1 1 1 true
     (by rw [step_isArmRested]; norm_num [MIN_REST_THRESHOLD_N])⟩

/-- C4: the rest decision is exactly `F_total > MIN_REST_THRESHOLD_N`, and on
every not-rested cycle both CoP coordinates are NaN (embedded as `none`). -/
theorem is_rested_def_and_cop_nan (Fl Fr Fv : ℚ) (was : Bool) :
    ((copDeadzoneStep Fl Fr Fv was).isArmRested = true ↔
      MIN_REST_THRESHOLD_N < Fl + Fr + Fv) ∧
    ((copDeadzoneStep Fl Fr Fv was).isArmRested = false →
      (copDeadzoneStep Fl Fr Fv was).cop_x = none ∧
      (copDeadzoneStep Fl Fr Fv was).cop_y = none) := by
  constructor
  · rw [step_isArmRested]
    simp
  · intro h
    by_cases hF : MIN_REST_THRESHOLD_N < Fl + Fr + Fv
    · rw [copDeadzoneStep_rested Fl Fr Fv was hF] at h
      simp at h
    · rw [copDeadzoneStep_not_rested Fl Fr Fv was hF]
      exact ⟨rfl, rfl⟩

theorem is_rested_def_and_cop_nan_witness :
    ((copDeadzoneStep 1 1 1 false).isArmRested = true ↔
      MIN_REST_THRESHOLD_N < 1 + 1 + 1) ∧
    (copDeadzoneStep 1 1 1 false).cop_x = none ∧
    (copDeadzoneStep 1 1 1 false).cop_y = none :=
  ⟨(is_rested_def_and_cop_nan 1 1 1 false).1,
   (is_rested_def_and_cop_nan 1 1 1 false).2
     (by rw [step_isArmRested]; norm_num [MIN_REST_THRESHOLD_N])⟩

/-- C6: the rest threshold is strictly positive, and on every cycle that
reaches the CoP division the divisor `F_total` is strictly positive. -/
theorem cop_divisor_positive (Fl Fr Fv : ℚ) (was : Bool)
    (h : (copDeadzoneStep Fl Fr Fv was).isArmRested = true) :
    0 < MIN_REST_THRESHOLD_N ∧ 0 < Fl + Fr + Fv := by
  rw [step_isArmRested] at h
  have hF : MIN_REST_THRESHOLD_N < Fl + Fr + Fv := of_decide_eq_true h
  have hpos : 0 < MIN_REST_THRESHOLD_N := by norm_num [MIN_REST_THRESHOLD_N]
  exact ⟨hpos, lt_trans hpos hF⟩

theorem cop_divisor_positive_witness :
    (copDeadzoneStep 10 0 0 false).isArmRested = true ∧
    0 < MIN_REST_THRESHOLD_N ∧ (0 : ℚ) < 10 + 0 + 0 :=
  ⟨by rw [step_isArmRested]; norm_num [MIN_REST_THRESHOLD_N],
   cop_divisor_positive 10 0 0 false
     (by rw [step_isArmRested]; norm_num [MIN_REST_THRESHOLD_N])⟩

/-- C8: every constant input is a fixed point of the EMA update: one update at
the current value returns the current value, and a whole trajectory fed its
own current value on every cycle stays at its initial value forever. -/
theorem ema_constant_input_fixed_point :
    (∀ v : ℚ, ema v v = v) ∧
    ∀ (inputs : ℕ → ℚ) (init : ℚ),
      (∀ n, inputs n = filtTrace inputs init n) →
      ∀ n, filtTrace inputs init n = init := by
  have hfix : ∀ v : ℚ, ema v v = v := by
    intro v
    unfold ema EMA_ALPHA
    ring
  refine ⟨hfix, fun inputs init h n => ?_⟩
  induction n with
  | zero => rfl
  | succ n ihn =>
    show ema (inputs n) (filtTrace inputs init n) = init
    rw [h n, ihn]
    exact hfix init

lemma filtTrace_const_three (n : ℕ) : filtTrace (fun _ => (3 : ℚ)) 3 n = 3 := by
  induction n with
  | zero => rfl
  | succ n ihn =>
    show ema 3 (filtTrace (fun _ => (3 : ℚ)) 3 n) = 3
    rw [ihn]
    norm_num [ema, EMA_ALPHA]

theorem ema_constant_input_fixed_point_witness :
    filtTrace (fun _ => (3 : ℚ)) 3 5 = 3 :=
  ema_constant_input_fixed_point.2 (fun _ => 3) 3
    (fun n => (filtTrace_const_three n).symm) 5

/-! ## Telemetry-gate counting lemmas (for C7) -/

/-- After an emission at time `e`, running `T` dense iterations from time
`e + j` (with `1 ≤ j ≤ 50`) emits `(j + T - 1) / 50` records. -/
lemma logRun_after : ∀ (T e j : ℕ), 1 ≤ j → j ≤ 50 →
    logRun e (e + j) T = (j + T - 1) / 50 := by
  intro T
  induction T with
  | zero =>
    intro e j h1 h2
    simp only [logRun]
    omega
  | succ T ih =>
    intro e j h1 h2
    simp only [logRun, LOG_INTERVAL_MS]
    rw [show e + j - e = j from by omega]
    by_cases h50 : 50 ≤ j
    · rw [if_pos h50]
      have hj : j = 50 := by omega
      subst hj
      rw [ih (e + 50) 1 (by omega) (by omega)]
      omega
    · rw [if_neg h50]
      rw [show e + j + 1 = e + (j + 1) from by omega]
      rw [ih e (j + 1) (by omega) (by omega)]
      omega

/-- With the gate already due at the first iteration, `T ≥ 1` dense iterations
emit exactly `(T - 1) / 50 + 1` records. -/
lemma logRun_fresh (last t T : ℕ) (h : 50 ≤ t - last) (hT : 1 ≤ T) :
    logRun last t T = (T - 1) / 50 + 1 := by
  obtain ⟨T', rfl⟩ : ∃ T', T = T' + 1 := ⟨T - 1, by omega⟩
  simp only [logRun, LOG_INTERVAL_MS]
  rw [if_pos h]
  rw [logRun_after T' t 1 (by omega) (by omega)]
  omega

/-- Any run whose iteration timestamps all lie in `[last, B]` emits at most
`(B - last) / 50` records: consecutive emissions are at least 50 ms apart. -/
lemma countEmits_le_div (ts : List ℕ) : ∀ (last B : ℕ),
    List.Pairwise (· ≤ ·) ts → (∀ x ∈ ts, last ≤ x ∧ x ≤ B) →
    countEmits last ts ≤ (B - last) / 50 := by
  induction ts with
  | nil =>
    intro last B _ _
    simp [countEmits]
  | cons t ts ih =>
    intro last B hp hb
    obtain ⟨hle, hp'⟩ := List.pairwise_cons.mp hp
    obtain ⟨hlt, htB⟩ := hb t (List.mem_cons_self t ts)
    simp only [countEmits, LOG_INTERVAL_MS]
    by_cases h : 50 ≤ t - last
    · rw [if_pos h]
      have h1 := ih t B hp'
        (fun x hx => ⟨hle x hx, (hb x (List.mem_cons_of_mem t hx)).2⟩)
      omega
    · rw [if_neg h]
      exact ih last B hp'
        (fun x hx => ⟨le_trans hlt (hle x hx), (hb x (List.mem_cons_of_mem t hx)).2⟩)

/-- Any run whose iteration timestamps all lie in a window of length `T`
emits at most `T / 50 + 1` records, for any starting last-emit timestamp and
any number of iterations. -/
lemma countEmits_window (ts : List ℕ) : ∀ (last t0 T : ℕ),
    List.Pairwise (· ≤ ·) ts → (∀ x ∈ ts, t0 ≤ x ∧ x < t0 + T) →
    countEmits last ts ≤ T / 50 + 1 := by
  induction ts with
  | nil =>
    intro last t0 T _ _
    simp [countEmits]
  | cons t ts ih =>
    intro last t0 T hp hb
    obtain ⟨hle, hp'⟩ := List.pairwise_cons.mp hp
    obtain ⟨ht0, htT⟩ := hb t (List.mem_cons_self t ts)
    simp only [countEmits, LOG_INTERVAL_MS]
    by_cases h : 50 ≤ t - last
    · rw [if_pos h]
      have h1 := countEmits_le_div ts t (t0 + T - 1) hp'
        (fun x hx => ⟨hle x hx, by
          have := (hb x (List.mem_cons_of_mem t hx)).2
          omega⟩)
      omega
    · rw [if_neg h]
      exact ih last t0 T hp' (fun x hx => hb x (List.mem_cons_of_mem t hx))

/-- C7: over `T` ms of dense continuous operation starting with the gate due,
the number of emitted records is `⌊T / 50⌋` plus 0 or 1; over any window of
length `T` ms the count never exceeds `⌊T / 50⌋ + 1` however many iterations
occur; and the filtering and CoP/dead-zone computation of a loop iteration is
independent of the telemetry gate state `lastLogTime`. -/
theorem telemetry_rate_and_gate_independence :
    (∀ last t T : ℕ, 50 ≤ t - last → 1 ≤ T →
      T / 50 ≤ logRun last t T ∧ logRun last t T ≤ T / 50 + 1) ∧
    (∀ e j T : ℕ, 1 ≤ j → j ≤ 50 →
      T / 50 ≤ logRun e (e + j) T ∧ logRun e (e + j) T ≤ T / 50 + 1) ∧
    (∀ (ts : List ℕ) (last t0 T : ℕ),
      List.Pairwise (· ≤ ·) ts → (∀ x ∈ ts, t0 ≤ x ∧ x < t0 + T) →
      countEmits last ts ≤ T / 50 + 1) ∧
    (∀ (s : DAQState) (vL vR vV rL rR rV : ℚ) (now t : ℕ),
      (loopStep { s with lastLogTime := t } vL vR vV rL rR rV now).1.filtered_v_left =
        (loopStep s vL vR vV rL rR rV now).1.filtered_v_left ∧
      (loopStep { s with lastLogTime := t } vL vR vV rL rR rV now).1.filtered_v_right =
        (loopStep s vL vR vV rL rR rV now).1.filtered_v_right ∧
      (loopStep { s with lastLogTime := t } vL vR vV rL rR rV now).1.filtered_v_vtc =
        (loopStep s vL vR vV rL rR rV now).1.filtered_v_vtc ∧
      (loopStep { s with lastLogTime := t } vL vR vV rL rR rV now).1.was_in_deadzone =
        (loopStep s vL vR vV rL rR rV now).1.was_in_deadzone ∧
      (loopStep { s with lastLogTime := t } vL vR vV rL rR rV now).2.2 =
        (loopStep s vL vR vV rL rR rV now).2.2) := by
  refine ⟨fun last t T h hT => ?_, fun e j T h1 h2 => ?_, countEmits_window,
    fun s vL vR vV rL rR rV now t => ?_⟩
  · rw [logRun_fresh last t T h hT]
    omega
  · rw [logRun_after T e j h1 h2]
    omega
  · exact ⟨rfl, rfl, rfl, rfl, rfl⟩

theorem telemetry_rate_and_gate_independence_witness :
    (50 ≤ 50 - 0 ∧ 1 ≤ 60 ∧
      60 / 50 ≤ logRun 0 50 60 ∧ logRun 0 50 60 ≤ 60 / 50 + 1) ∧
    (70 / 50 ≤ logRun 0 (0 + 20) 70 ∧ logRun 0 (0 + 20) 70 ≤ 70 / 50 + 1) ∧
    countEmits 0 [100, 120] ≤ 21 / 50 + 1 ∧
    (loopStep ⟨0, 0, 0, false, 0⟩ 1 1 1 0 0 0 5).2.2 =
      (loopStep ⟨0, 0, 0, false, 7⟩ 1 1 1 0 0 0 5).2.2 :=
  ⟨⟨by decide, by decide,
    telemetry_rate_and_gate_independence.1 0 50 60 (by decide) (by decide)⟩,
   telemetry_rate_and_gate_independence.2.1 0 20 70 (by decide) (by decide),
   telemetry_rate_and_gate_independence.2.2.1 [100, 120] 0 100 21 (by decide)
     (by decide),
   (telemetry_rate_and_gate_independence.2.2.2
     ⟨0, 0, 0, false, 7⟩ 1 1 1 0 0 0 5 0).2.2.2.2⟩

/-- C10: on every rested cycle the CoP is a convex combination of the three
sensor positions with weights `F_i / F_total`, hence lies in the triangle
spanned by (0,0), (7,0), (3.5,22); in particular `0 ≤ CoP_x ≤ 7` and
`0 ≤ CoP_y ≤ 22`. -/
theorem cop_convex_combination_in_triangle (vL vR vV rL rR rV : ℚ) (was : Bool)
    (h : (cycleCompute vL vR vV rL rR rV was).isArmRested = true) :
    ∃ cx cy wl wr wv : ℚ,
      (cycleCompute vL vR vV rL rR rV was).cop_x = some cx ∧
      (cycleCompute vL vR vV rL rR rV was).cop_y = some cy ∧
      0 ≤ wl ∧ 0 ≤ wr ∧ 0 ≤ wv ∧ wl + wr + wv = 1 ∧
      cx = wl * P_LEFT_X + wr * P_RIGHT_X + wv * P_VTC_X ∧
      cy = wl * P_LEFT_Y + wr * P_RIGHT_Y + wv * P_VTC_Y ∧
      0 ≤ cx ∧ cx ≤ 7 ∧ 0 ≤ cy ∧ cy ≤ 22 := by
  unfold cycleCompute at h ⊢
  set Fl := F_leftOf vL rL with hFl
  set Fr := F_rightOf vR rR with hFr
  set Fv := F_vtcOf vV rV with hFv
  have hFl0 : 0 ≤ Fl := forceFromVoltage_nonneg vL rL _ _
    (by norm_num [C_REL_LEFT]) (by norm_num [SYSTEM_FORCE_SCALE])
  have hFr0 : 0 ≤ Fr := forceFromVoltage_nonneg vR rR _ _
    (by norm_num [C_REL_RIGHT]) (by norm_num [SYSTEM_FORCE_SCALE])
  have hFv0 : 0 ≤ Fv := forceFromVoltage_nonneg vV rV _ _
    (by norm_num [C_REL_VTC]) (by norm_num [SYSTEM_FORCE_SCALE])
  rw [step_isArmRested] at h
  have hrest : MIN_REST_THRESHOLD_N < Fl + Fr + Fv := of_decide_eq_true h
  have hS : 0 < Fl + Fr + Fv :=
    lt_trans (by norm_num [MIN_REST_THRESHOLD_N]) hrest
  have hSne : Fl + Fr + Fv ≠ 0 := ne_of_gt hS
  rw [copDeadzoneStep_rested Fl Fr Fv was hrest]
  refine ⟨(P_LEFT_X * Fl + P_RIGHT_X * Fr + P_VTC_X * Fv) / (Fl + Fr + Fv),
          (P_LEFT_Y * Fl + P_RIGHT_Y * Fr + P_VTC_Y * Fv) / (Fl + Fr + Fv),
          Fl / (Fl + Fr + Fv), Fr / (Fl + Fr + Fv), Fv / (Fl + Fr + Fv),
          rfl, rfl,
          div_nonneg hFl0 (le_of_lt hS),
          div_nonneg hFr0 (le_of_lt hS),
          div_nonneg hFv0 (le_of_lt hS),
          ?_, ?_, ?_, ?_, ?_, ?_, ?_⟩
  · rw [div_add_div_same, div_add_div_same]
    exact div_self hSne
  · unfold P_LEFT_X P_RIGHT_X P_VTC_X
    ring
  · unfold P_LEFT_Y P_RIGHT_Y P_VTC_Y
    ring
  · apply div_nonneg _ (le_of_lt hS)
    norm_num [P_LEFT_X, P_RIGHT_X, P_VTC_X]
    linarith
  · rw [div_le_iff₀ hS]
    norm_num [P_LEFT_X, P_RIGHT_X, P_VTC_X]
    linarith
  · apply div_nonneg _ (le_of_lt hS)
    norm_num [P_LEFT_Y, P_RIGHT_Y, P_VTC_Y]
    linarith
  · rw [div_le_iff₀ hS]
    norm_num [P_LEFT_Y, P_RIGHT_Y, P_VTC_Y]
    linarith

theorem cop_convex_combination_in_triangle_witness :
    (cycleCompute 2 1 1 1 1 1 false).isArmRested = true ∧
    ∃ cx cy wl wr wv : ℚ,
      (cycleCompute 2 1 1 1 1 1 false).cop_x = some cx ∧
      (cycleCompute 2 1 1 1 1 1 false).cop_y = some cy ∧
      0 ≤ wl ∧ 0 ≤ wr ∧ 0 ≤ wv ∧ wl + wr + wv = 1 ∧
      cx = wl * P_LEFT_X + wr * P_RIGHT_X + wv * P_VTC_X ∧
      cy = wl * P_LEFT_Y + wr * P_RIGHT_Y + wv * P_VTC_Y ∧
      0 ≤ cx ∧ cx ≤ 7 ∧ 0 ≤ cy ∧ cy ≤ 22 :=
  have hr : (cycleCompute 2 1 1 1 1 1 false).isArmRested = true := by
    unfold cycleCompute
    rw [step_isArmRested]
    norm_num [F_leftOf, F_rightOf, F_vtcOf, forceFromVoltage, voltageToRawUnit,
      P1, P2, P3, C_REL_LEFT, C_REL_RIGHT, C_REL_VTC, SYSTEM_FORCE_SCALE,
      MIN_REST_THRESHOLD_N]
  ⟨hr, cop_convex_combination_in_triangle 2 1 1 1 1 1 false hr⟩

end PostureSense
